import Mathlib

/-!
Verification development for the miqro service runtime and its
Home-Assistant discovery entity model.  The definitions below are a
shallow embedding of the Python sources (miqro/__init__.py and
miqro/ha_sensors.py): Python strings are lists of characters, datetimes
and timedeltas are integers (an abstract tick count), callables are
identified by natural-number ids, and code that can raise returns Except.
-/

/-- Python strings are modelled as lists of characters. -/
abbrev Str := List Char

/-- Conversion from a Lean string literal to the model string type. -/
def str (s : String) : Str := s.toList

/- ========================================================================
   Scheduler: class Loop (miqro/__init__.py lines 14-78)
   ======================================================================== -/

/-- Model of class Loop: fn is left abstract (its behaviour enters
run_if_needed as parameters), interval/next_call are integer ticks. -/
structure MLoop where
  interval : Int
  next_call : Option Int := none
  stat_call_count : Nat := 0
  stat_cumulative_duration : Int := 0
deriving DecidableEq

/-- Model of Loop.run_if_needed.  now is datetime.now() sampled at entry;
fnNotFalse models the test (self.fn(instance) is not False); nowAfter is
datetime.now() sampled after the task returns.  The result is the updated
loop, the returned value (next_call or None), and whether the task was
invoked.  A datetime is always truthy in Python, so the guard
(self.next_call and now >= self.next_call) is: next_call is set and
now >= next_call. -/
def runIfNeeded (l : MLoop) (now : Int) (fnNotFalse : Bool) (nowAfter : Int) :
    MLoop × Option Int × Bool :=
  match l.next_call with
  | some nc =>
    if now ≥ nc then
      if fnNotFalse then
        ({ l with
            next_call := some (now + l.interval),
            stat_call_count := l.stat_call_count + 1,
            stat_cumulative_duration := l.stat_cumulative_duration + (nowAfter - now) },
          some (now + l.interval), true)
      else
        ({ l with next_call := none }, none, true)
    else (l, none, false)
  | none => (l, none, false)

/-- Model of Loop.get_remaining: None means inactive. -/
def getRemaining (l : MLoop) (now : Int) : Option Int :=
  match l.next_call with
  | none => none
  | some nc => some (nc - now)

/- ========================================================================
   Dispatch table and router: Service._all_handlers / Service._on_message
   (miqro/__init__.py lines 398-432), Service.add_handler (354-359),
   Service.__init__ handler setup (246-248), Service._on_enable (373-379)
   ======================================================================== -/

/-- One handler invocation produced by the router.  Handler callables are
identified by a natural number id. -/
inductive Invocation where
  | withSuffix (h : Nat) (payload : Str) (suffix : Str)
  | plain (h : Nat) (payload : Str)
deriving DecidableEq

/-- Model of str.strip() on the decoded payload: drop leading and trailing
whitespace. -/
def pyStrip (s : Str) : Str :=
  ((s.dropWhile Char.isWhitespace).reverse.dropWhile Char.isWhitespace).reverse

/-- Model of the generator Service._all_handlers: global registrations
first, then the local registrations with the data topic prefix
prepended. -/
def allHandlers (gh lh : List (Str × Nat)) (pfx : Str) : List (Str × Nat) :=
  gh ++ lh.map (fun r => (pfx ++ r.1, r.2))

/-- The body of the registration loop in Service._on_message for one
registration: if the pattern contains the wildcard marker, drop its last
character (topic[:-1]), match by startswith and pass the rest of the
topic as suffix; otherwise require exact equality. -/
def matchOne (msgTopic payload : Str) (r : Str × Nat) : Option Invocation :=
  if r.1.contains '#' then
    let pre := r.1.dropLast
    if pre.isPrefixOf msgTopic then
      some (.withSuffix r.2 payload (msgTopic.drop pre.length))
    else none
  else
    if r.1 = msgTopic then some (.plain r.2 payload) else none

/-- Model of Service._on_message: strip the payload, then run every
registration (no break: all matches fire).  Returns the invocations in
registration order together with the handled flag. -/
def onMessage (gh lh : List (Str × Nat)) (pfx : Str) (msgTopic rawPayload : Str) :
    List Invocation × Bool :=
  let payload := pyStrip rawPayload
  let invs := (allHandlers gh lh pfx).filterMap (matchOne msgTopic payload)
  (invs, !invs.isEmpty)

/-- Model of the BODY of Service._on_enable: the value the enabled flag
would be assigned is True exactly when the payload is the string 1.
The body is never reached by routing: the registration stores the bound
method and the router call convention makes it raise, see pyCall and
enabled_delivery_typeerror below. -/
def onEnable (payload : Str) : Bool :=
  if payload = str "1" then true else false

/-- Model of the handler list built in Service.__init__: the class level
handlers (stored by the handle decorator as plain, unbound functions)
followed by the reserved ("enabled", self._on_enable) registration;
enId is the id standing for that entry.  Note the source appends the
BOUND method self._on_enable here; the callable shape behind each id is
modelled separately by PyCallable below. -/
def initMqttHandlers (classHandlers : List (Str × Nat)) (enId : Nat) :
    List (Str × Nat) :=
  classHandlers ++ [(str "enabled", enId)]

/-- A Python callable as stored in the dispatch table: the positional
parameter count of the underlying function, and how many arguments are
already pre-applied by method binding (1 for a bound method such as
self._on_enable, 0 for the plain functions stored by the handle
decorator). -/
structure PyCallable where
  params : Nat
  bound : Nat
deriving DecidableEq

/-- Model of a Python positional call with n further arguments: the
underlying function receives bound + n positional arguments and the
call raises TypeError unless that equals its parameter count. -/
def pyCall (c : PyCallable) (n : Nat) : Except Str Unit :=
  if c.bound + n = c.params then .ok ()
  else .error (str "TypeError")

/-- Model of executing one router invocation from _on_message: an exact
match performs the call handler(self, payload), two positional
arguments; a wildcard match performs handler(self, payload, suffix),
three.  table gives the callable shape behind each handler id. -/
def runInvocation (table : Nat → PyCallable) : Invocation → Except Str Unit
  | .plain h _ => pyCall (table h) 2
  | .withSuffix h _ _ => pyCall (table h) 3

/-- The callable registered for the reserved enabled pattern: the bound
method self._on_enable, whose underlying function _on_enable(self,
payload) has two parameters, one of which is consumed by binding. -/
def onEnableCallable : PyCallable := { params := 2, bound := 1 }

/-- The callable shape of a class-level handler registered through the
handle decorator: a plain function fn(self, payload) with two
parameters and nothing pre-bound. -/
def classHandlerCallable : PyCallable := { params := 2, bound := 0 }

/- ========================================================================
   Publish pipeline: Service.publish / publish_json
   (miqro/__init__.py lines 437-498), _round_floats (543-550)
   ======================================================================== -/

/-- QOS_MAX_ONCE constant of class Service. -/
def QOS_MAX_ONCE : Nat := 0

/-- QOS_AT_LEAST_ONCE constant of class Service. -/
def QOS_AT_LEAST_ONCE : Nat := 1

/-- Python values that can be handed to Service.publish; floats are
modelled as rationals. -/
inductive PyVal where
  | vbool (b : Bool)
  | vnone
  | vstr (s : Str)
  | vint (n : Int)
  | vfloat (q : Rat)
  | vdict (l : List (Str × PyVal))
  | vlist (l : List PyVal)

/-- Rounding a float to JSON_FLOAT_PRECISION = 4 decimal places, the
model of round(o, 4). -/
def roundQ (q : Rat) : Rat := ((round (q * 10000) : Int) : Rat) / 10000

mutual

/-- Model of Service._round_floats: round every float leaf, recursing
through dicts and lists. -/
def roundFloats : PyVal → PyVal
  | .vbool b => .vbool b
  | .vnone => .vnone
  | .vstr s => .vstr s
  | .vint n => .vint n
  | .vfloat q => .vfloat (roundQ q)
  | .vdict l => .vdict (roundFloatsDict l)
  | .vlist l => .vlist (roundFloatsList l)

/-- Recursion of _round_floats through the entries of a dict. -/
def roundFloatsDict : List (Str × PyVal) → List (Str × PyVal)
  | [] => []
  | (k, v) :: rest => (k, roundFloats v) :: roundFloatsDict rest

/-- Recursion of _round_floats through the items of a list. -/
def roundFloatsList : List PyVal → List PyVal
  | [] => []
  | v :: rest => roundFloats v :: roundFloatsList rest

end

/-- Decimal digits of a natural number, model helper for serialization. -/
def natDigits (n : Nat) : Str := (toString n).toList

/-- Serialization of an integer. -/
def intRepr (n : Int) : Str :=
  if n < 0 then str "-" ++ natDigits n.natAbs else natDigits n.natAbs

/-- Serialization of a rational standing for a Python float; an abstract
but injective textual form is enough for this development, since no claim
inspects the characters json.dumps produces for a float. -/
def ratRepr (q : Rat) : Str := intRepr q.num ++ str "/" ++ natDigits q.den

mutual

/-- Model of json.dumps on the PyVal type. -/
def dumps : PyVal → Str
  | .vbool true => str "true"
  | .vbool false => str "false"
  | .vnone => str "null"
  | .vstr s => str "\x22" ++ s ++ str "\x22"
  | .vint n => intRepr n
  | .vfloat q => ratRepr q
  | .vdict l => str "\x7b" ++ dumpsDict l ++ str "\x7d"
  | .vlist l => str "[" ++ dumpsList l ++ str "]"

/-- json.dumps on the entries of a dict. -/
def dumpsDict : List (Str × PyVal) → Str
  | [] => []
  | (k, v) :: rest =>
    str "\x22" ++ k ++ str "\x22:" ++ dumps v ++
      (if rest.isEmpty then [] else str ",") ++ dumpsDict rest

/-- json.dumps on the items of a list. -/
def dumpsList : List PyVal → Str
  | [] => []
  | v :: rest => dumps v ++ (if rest.isEmpty then [] else str ",") ++ dumpsList rest

end

/-- Normalized scalar values as they reach the change detection cache and
the transport: booleans became 1/0, None became the empty string. -/
inductive NVal where
  | nstr (s : Str)
  | nint (n : Int)
  | nfloat (q : Rat)
deriving DecidableEq

/-- Python equality (==) between cached and new message values: numeric
values compare across int/float, strings only to strings. -/
def nvalEq : NVal → NVal → Bool
  | .nstr a, .nstr b => a == b
  | .nint a, .nint b => a == b
  | .nfloat a, .nfloat b => a == b
  | .nint a, .nfloat b => ((a : Rat) == b)
  | .nfloat a, .nint b => (a == (b : Rat))
  | _, _ => false

/-- An entry of last_key_values: the only_if_changed=True branch stores
the bare message, the timedelta branch stores a (message, datetime)
pair. -/
inductive CacheEntry where
  | plain (m : NVal)
  | timed (m : NVal) (t : Int)
deriving DecidableEq

/-- One call handed to mqtt_client.publish. -/
structure MqttCall where
  topic : Str
  message : NVal
  retain : Bool
  qos : Nat
deriving DecidableEq

/-- The mutable state touched by the publish pipeline: the change
detection cache plus the list of transport calls made so far. -/
structure PubState where
  last_key_values : List (Str × CacheEntry)
  calls : List MqttCall
deriving DecidableEq

/-- The only_if_changed argument: False, True, or a timedelta. -/
inductive OIC where
  | f
  | t
  | dur (d : Int)
deriving DecidableEq

/-- Association-list lookup modelling dict.get. -/
def lookupKV {α : Type} (k : Str) : List (Str × α) → Option α
  | [] => none
  | p :: rest => if p.1 = k then some p.2 else lookupKV k rest

/-- Association-list store modelling dict assignment: replace in place if
the key exists, else append. -/
def insertKV {α : Type} (k : Str) (v : α) : List (Str × α) → List (Str × α)
  | [] => [(k, v)]
  | p :: rest => if p.1 = k then (k, v) :: rest else p :: insertKV k v rest

/-- The topic of Service.publish: prefixed unless global_ is set. -/
def fullTopic (pfx ext : Str) (glob : Bool) : Str :=
  if glob then ext else pfx ++ ext

/-- The tail of Service.publish after normalization, for a scalar
message: the change detection on last_key_values followed by the
transport call.  now is datetime.now().  In the timedelta branch the code
unpacks the cached entry into (last_message, last_time); a bare cached
scalar there raises in Python, modelled by Except.error.  A cached
datetime is always truthy, so the last_time test only rules out the
(None, None) default, which the none branch covers. -/
def publishScalar (st : PubState) (pfx : Str) (now : Int) (ext : Str)
    (msg : NVal) (retain : Bool) (qos : Nat) (oic : OIC) (glob : Bool) :
    Except Str PubState :=
  let topic := fullTopic pfx ext glob
  let send : PubState → PubState := fun s =>
    { s with calls := s.calls ++ [⟨topic, msg, retain, qos⟩] }
  match oic with
  | .f => .ok (send st)
  | .t =>
    match lookupKV topic st.last_key_values with
    | some (.plain lm) =>
      if nvalEq lm msg then .ok st
      else .ok (send { st with
        last_key_values := insertKV topic (.plain msg) st.last_key_values })
    | some (.timed _ _) =>
      .ok (send { st with
        last_key_values := insertKV topic (.plain msg) st.last_key_values })
    | none =>
      .ok (send { st with
        last_key_values := insertKV topic (.plain msg) st.last_key_values })
  | .dur d =>
    match lookupKV topic st.last_key_values with
    | some (.plain _) => .error (str "TypeError")
    | some (.timed lm lt) =>
      if nvalEq lm msg && decide (lt + d > now) then .ok st
      else .ok (send { st with
        last_key_values := insertKV topic (.timed msg now) st.last_key_values })
    | none =>
      .ok (send { st with
        last_key_values := insertKV topic (.timed msg now) st.last_key_values })

/-- Model of Service.publish_json: it JSON-encodes the rounded message
and calls Service.publish WITHOUT the qos argument, so the inner publish
runs with the default QOS_MAX_ONCE; since json.dumps returns a string,
that inner call is exactly the scalar branch of publish spelled out
below.  The qos parameter is received here but never forwarded. -/
def publish_json (st : PubState) (pfx : Str) (now : Int) (ext : Str)
    (mj : PyVal) (retain : Bool) (qos : Nat) (oic : OIC) (glob : Bool) :
    Except Str PubState :=
  publishScalar st pfx now ext (.nstr (dumps (roundFloats mj))) retain
    QOS_MAX_ONCE oic glob

/-- Normalization of a scalar message in Service.publish: booleans become
1/0, None becomes the empty string, everything else goes through
_round_floats (identity except on floats). -/
def normal : PyVal → NVal
  | .vbool b => .nint (if b then 1 else 0)
  | .vnone => .nstr []
  | .vstr s => .nstr s
  | .vint n => .nint n
  | .vfloat q => .nfloat (roundQ q)
  | .vdict _ => .nstr []
  | .vlist _ => .nstr []

/-- Whether publish treats the value as a scalar (not dict or list). -/
def isScalar : PyVal → Bool
  | .vdict _ => false
  | .vlist _ => false
  | _ => true

/-- Model of Service.publish.  For a dict or list the code delegates to
publish_json positionally as publish_json(ext, message, retain, qos,
only_if_changed) and returns: the global_ flag is NOT forwarded (it stays
at its default False).  Otherwise the normalized scalar goes through the
change detection and the transport call. -/
def publish (st : PubState) (pfx : Str) (now : Int) (ext : Str)
    (m : PyVal) (retain : Bool) (qos : Nat) (oic : OIC) (glob : Bool) :
    Except Str PubState :=
  match m with
  | .vdict l => publish_json st pfx now ext (.vdict l) retain qos oic false
  | .vlist l => publish_json st pfx now ext (.vlist l) retain qos oic false
  | _ => publishScalar st pfx now ext (normal m) retain qos oic glob

/-- True when the cache holds, under the True branch of only_if_changed,
a value Python-equal to the new message for this topic: exactly the skip
condition of that branch. -/
def cachedEq (st : PubState) (topic : Str) (msg : NVal) : Bool :=
  match lookupKV topic st.last_key_values with
  | some (.plain lm) => nvalEq lm msg
  | _ => false

/- ========================================================================
   Entity model: miqro/ha_sensors.py
   ======================================================================== -/

/-- Model of clean_string: characters outside [A-Za-z0-9_-] become a
dash, then leading and trailing dashes are stripped. -/
def cleanChar (c : Char) : Char :=
  if c.isAlpha ∨ c.isDigit ∨ c = '_' ∨ c = '-' then c else '-'

/-- Strip a leading and trailing run of dashes, the model of
str.strip with a dash argument. -/
def stripDash (s : Str) : Str :=
  ((s.dropWhile (fun c => c = '-')).reverse.dropWhile (fun c => c = '-')).reverse

/-- Model of clean_string of ha_sensors.py. -/
def cleanString (s : Str) : Str := stripDash (s.map cleanChar)

/-- Replacement of dots by underscores, model of replace on the default
entity id. -/
def replaceDotUnderscore (s : Str) : Str :=
  s.map (fun c => if c = '.' then '_' else c)

/-- Replacement of slashes by underscores, used on topic suffixes. -/
def replaceSlashUnderscore (s : Str) : Str :=
  s.map (fun c => if c = '/' then '_' else c)

/-- The service attributes the entity model reads.  SERVICE_NAME and the
data topic prefix (field pfx here) come from Service/_read_config.
Modelled from the spec: PAYLOAD_ON and PAYLOAD_OFF, the service-wide
default on/off payload constants, are referenced by ha_sensors.py but not
defined anywhere under the sources; the spec calls them service-wide
constants, so they are carried as two string fields of the service. -/
structure HAService where
  SERVICE_NAME : Str
  pfx : Str
  PAYLOAD_ON : Str
  PAYLOAD_OFF : Str
deriving DecidableEq

/-- The liveness topic: data topic prefix followed by online
(_read_config, line 334). -/
def HAService.willtopic (s : HAService) : Str := s.pfx ++ str "online"

/-- The fields of an entity that this development tracks, a common model
for the dataclass hierarchy under EntityWithoutStateTopic.  The
state_topic_sfx field stands for the source field named with postfix in
place of sfx; an empty list is the empty-string dataclass default.  The
callbacks list carries, for each pair of fields X_topic_(postfix) and
X_callback found by the reflection loop, the topic suffix value and the
optional callback id. -/
structure EntData where
  component : Str
  name : Str
  default_entity_id : Option Str := none
  unique_id : Option Str := none
  state_topic_sfx : Str := []
  callbacks : List (Str × Option Nat) := []
  device_class : Option Str := none
  payload_on : Option Str := none
  payload_off : Option Str := none
  options : Option (List Str) := none
  precision : Option Str := none
  temperature_unit : Option Str := none
deriving DecidableEq

/-- The mutable surroundings of entity construction: the owning device's
entity list (Device.add_entity appends), the service's local handler
registrations (Service.add_handler appends), and the service's
ha_entities list for device-less entities. -/
structure World where
  devEntities : List EntData := []
  handlers : List (Str × Nat) := []
  haEntities : List EntData := []
deriving DecidableEq

/-- The handler registrations produced by the reflection loop: one
(suffix, callback) registration per pair whose callback is not None. -/
def regsOf (cbs : List (Str × Option Nat)) : List (Str × Nat) :=
  cbs.filterMap (fun pr => pr.2.map (fun cb => (pr.1, cb)))

/-- Whether any callback is present (forces the self.device.service
access in the reflection loop). -/
def hasCb (cbs : List (Str × Option Nat)) : Bool :=
  cbs.any (fun pr => pr.2.isSome)

/-- Derivation of default_entity_id when absent: component dot
clean_string(name). -/
def deriveDefaultId (e : EntData) : EntData :=
  match e.default_entity_id with
  | none =>
    let v := e.component ++ str "." ++ cleanString e.name
    { e with default_entity_id := some v }
  | some _ => e

/-- Derivation of unique_id when absent: owner stable id, two
underscores, the default entity id with dots replaced by underscores.
dev carries the owning device's _unique_id when a device is set. -/
def deriveUniqueId (dev : Option Str) (svc : HAService) (e : EntData) : EntData :=
  match e.unique_id with
  | none =>
    match dev with
    | some du =>
      let v := du ++ str "__" ++ replaceDotUnderscore (e.default_entity_id.getD [])
      { e with unique_id := some v }
    | none =>
      let v := cleanString svc.SERVICE_NAME ++ str "__" ++
        replaceDotUnderscore (e.default_entity_id.getD [])
      { e with unique_id := some v }
  | some _ => e

/-- Model of EntityWithoutStateTopic.__post_init__.  dev is the owning
device's stable id when the device field is set; hasSvc is whether the
service field is set.  Order as in the source: owner validation, id
derivation, callback auto-registration (which dereferences self.device
and so raises for a device-less entity that has any callback), then the
append to the device's entity list or to service.ha_entities. -/
def basePostInit (svc : HAService) (dev : Option Str) (hasSvc : Bool)
    (e : EntData) (w : World) : Except Str (EntData × World) :=
  if dev.isNone && !hasSvc then
    .error (str "Either device or service must be set for an entity")
  else if dev.isSome && hasSvc then
    .error (str "Only one of device or service may be set for an entity")
  else
    let e1 := deriveUniqueId dev svc (deriveDefaultId e)
    if dev.isNone && hasCb e1.callbacks then
      .error (str "AttributeError")
    else
      let w1 := { w with handlers := w.handlers ++ regsOf e1.callbacks }
      let w2 :=
        match dev with
        | some _ => { w1 with devEntities := w1.devEntities ++ [e1] }
        | none => { w1 with haEntities := w1.haEntities ++ [e1] }
      .ok (e1, w2)

/-- Model of Entity.__post_init__: it calls the base initializer, checks
the state topic suffix, re-derives default_entity_id if still absent
(dead code: the base call always set it), and then calls the base
initializer a SECOND time, appending and registering again. -/
def entityPostInit (svc : HAService) (dev : Option Str) (hasSvc : Bool)
    (e : EntData) (w : World) : Except Str (EntData × World) := do
  let (e1, w1) ← basePostInit svc dev hasSvc e w
  if e1.state_topic_sfx = [] then
    .error (str "state_topic_postfix must be set")
  else
    let e2 :=
      match e1.default_entity_id with
      | none =>
        let v := e1.component ++ str "." ++ replaceSlashUnderscore e1.state_topic_sfx
        { e1 with default_entity_id := some v }
      | some _ => e1
    basePostInit svc dev hasSvc e2 w1

/-- Model of BinarySensor.__post_init__: after the Entity initializer,
a missing payload_on/payload_off falls back to str() of the resolved
service's PAYLOAD_ON/PAYLOAD_OFF (str() is the identity in this model
since the constants are modelled as strings). -/
def binarySensorPostInit (svc : HAService) (dev : Option Str) (hasSvc : Bool)
    (e : EntData) (w : World) : Except Str (EntData × World) := do
  let (e1, w1) ← entityPostInit svc dev hasSvc e w
  let e2 := if e1.payload_on = none then
      { e1 with payload_on := some svc.PAYLOAD_ON } else e1
  let e3 := if e2.payload_off = none then
      { e2 with payload_off := some svc.PAYLOAD_OFF } else e2
  .ok (e3, w1)

/-- Model of Switch.__post_init__: the dataclass defaults are the
literal strings on and off, so the None tests only fire when the caller
explicitly passed None; the fallback reads self.device.service, which
raises for a device-less switch. -/
def switchPostInit (svc : HAService) (dev : Option Str) (hasSvc : Bool)
    (e : EntData) (w : World) : Except Str (EntData × World) := do
  let (e1, w1) ← entityPostInit svc dev hasSvc e w
  let e2 ←
    if e1.payload_on = none then
      match dev with
      | some _ => pure { e1 with payload_on := some svc.PAYLOAD_ON }
      | none => Except.error (str "AttributeError")
    else pure e1
  let e3 ←
    if e2.payload_off = none then
      match dev with
      | some _ => pure { e2 with payload_off := some svc.PAYLOAD_OFF }
      | none => Except.error (str "AttributeError")
    else pure e2
  .ok (e3, w1)

/-- Model of Select.__post_init__: after the Entity initializer, an
empty (falsy) options list raises. -/
def selectPostInit (svc : HAService) (dev : Option Str) (hasSvc : Bool)
    (e : EntData) (w : World) : Except Str (EntData × World) := do
  let (e1, w1) ← entityPostInit svc dev hasSvc e w
  match e1.options with
  | none => .error (str "options must be set for select entity")
  | some [] => .error (str "options must be set for select entity")
  | some _ => .ok (e1, w1)

/-- Model of ClimateController.__post_init__: the base initializer runs
once (ClimateController extends EntityWithoutStateTopic directly), then
precision must be one of three canonical strings and temperature_unit
one of two letters. -/
def climateControllerPostInit (svc : HAService) (dev : Option Str)
    (hasSvc : Bool) (e : EntData) (w : World) : Except Str (EntData × World) := do
  let (e1, w1) ← basePostInit svc dev hasSvc e w
  let _ ←
    match e1.precision with
    | some p =>
      if p = str "0.1" ∨ p = str "0.5" ∨ p = str "1.0" then pure ()
      else Except.error (str "precision must be one of 0.1, 0.5, 1.0")
    | none => pure ()
  let _ ←
    match e1.temperature_unit with
    | some u =>
      if u = str "C" ∨ u = str "F" then pure ()
      else Except.error (str "temperature_unit must be C or F")
    | none => pure ()
  .ok (e1, w1)

/- ========================================================================
   Discovery documents: Device (ha_sensors.py lines 13-77) and
   EntityWithoutStateTopic.get_discover_payload / publish_discovery
   (lines 129-164)
   ======================================================================== -/

/-- The Device dataclass fields that survive serialization (non-None and
not underscore-prefixed, with the service reference removed and
via_device replaced by the referent's stable id, which is how this model
already stores it).  uid is the derived _unique_id. -/
structure HADevice where
  name : Str
  model : Option Str := none
  manufacturer : Option Str := none
  sw_version : Option Str := none
  hw_version : Option Str := none
  identifiers : List Str := []
  suggested_area : Option Str := none
  via_device : Option Str := none
  uid : Str := []
deriving DecidableEq

/-- Model of Device.__post_init__ for a device constructed with default
identifiers: the stable id is SERVICE_NAME underscore clean_string(name)
and becomes the identifier list. -/
def mkDevice (svc : HAService) (name : Str) : HADevice :=
  let u := svc.SERVICE_NAME ++ str "_" ++ cleanString name
  { name := name, identifiers := [u], uid := u }

/-- Values appearing in a serialized entity payload. -/
inductive PVal where
  | s (v : Str)
  | sl (v : List Str)
deriving DecidableEq

/-- Fragment holding one optional field of the serialized payload:
present exactly when the field is not None. -/
def optField (k : Str) (v : Option PVal) : List (Str × PVal) :=
  match v with
  | some x => [(k, x)]
  | none => []

/-- Model of EntityWithoutStateTopic.get_discover_payload on the tracked
fields: every non-None field except the device/service references and
the callbacks is included, platform is added from the component tag, and
each topic suffix field is rewritten to its full-topic counterpart by
prepending the service's data topic prefix (the suffix key itself is
dropped).  The state topic entry is present exactly for entities that
have the state topic field (non-empty in this model). -/
def getDiscoverPayload (svc : HAService) (e : EntData) : List (Str × PVal) :=
  [(str "name", .s e.name)]
  ++ optField (str "default_entity_id") (e.default_entity_id.map .s)
  ++ optField (str "unique_id") (e.unique_id.map .s)
  ++ optField (str "device_class") (e.device_class.map .s)
  ++ optField (str "payload_on") (e.payload_on.map .s)
  ++ optField (str "payload_off") (e.payload_off.map .s)
  ++ optField (str "options") (e.options.map .sl)
  ++ optField (str "precision") (e.precision.map .s)
  ++ optField (str "temperature_unit") (e.temperature_unit.map .s)
  ++ [(str "platform", .s e.component)]
  ++ (if e.state_topic_sfx = [] then []
      else [(str "state_topic", .s (svc.pfx ++ e.state_topic_sfx))])

/-- One availability clause of a discovery document. -/
structure AvailEntry where
  topic : Str
  payload_available : Str
  payload_not_available : Str
deriving DecidableEq

/-- A device-scoped discovery document. -/
structure DiscoveryDoc where
  device : HADevice
  origin_name : Str
  availability : List AvailEntry
  components : List (Str × List (Str × PVal))
deriving DecidableEq

/-- The arguments Device.publish_discovery hands to publish_json. -/
structure DiscCall where
  topic : Str
  doc : DiscoveryDoc
  qos : Nat
  retain : Bool
  global_ : Bool
deriving DecidableEq

/-- Python dict assignment on an insertion-ordered association list:
overwrite in place when the key exists, else append. -/
def dictInsert {α : Type} (k : Str) (v : α) (d : List (Str × α)) : List (Str × α) :=
  if d.any (fun p => p.1 == k) then
    d.map (fun p => if p.1 == k then (k, v) else p)
  else d ++ [(k, v)]

/-- Model of Device.publish_discovery: one document is assembled, with
the availability clause pointing at the service's liveness topic and the
components dict keyed by each owned entity's unique id; it is handed to
publish_json with qos=1, retain=True, global_=True.  The singleton list
models the single publish_json call the method makes. -/
def publishDiscovery (svc : HAService) (dev : HADevice)
    (entities : List EntData) (discPre : Str) : List DiscCall :=
  let comps := entities.foldl
    (fun acc e => dictInsert (e.unique_id.getD []) (getDiscoverPayload svc e) acc) []
  let doc : DiscoveryDoc :=
    { device := dev,
      origin_name := str "MIQRO service " ++ svc.SERVICE_NAME,
      availability := [⟨svc.willtopic, str "1", str "0"⟩],
      components := comps }
  [{ topic := discPre ++ str "/device/" ++ dev.uid ++ str "/config",
     doc := doc, qos := 1, retain := true, global_ := true }]

/-- The arguments EntityWithoutStateTopic.publish_discovery hands to
publish_json for a device-less entity. -/
structure EntDiscCall where
  topic : Str
  payload : List (Str × PVal)
  qos : Nat
  retain : Bool
  global_ : Bool
deriving DecidableEq

/-- Model of EntityWithoutStateTopic.publish_discovery: raises when the
entity has a device, otherwise publishes the entity's own payload to the
per-component config topic with qos=1, retain=True, global_=True. -/
def entityPublishDiscovery (svc : HAService) (dev : Option Str)
    (e : EntData) (discPre : Str) : Except Str EntDiscCall :=
  if dev.isSome then
    .error (str "publish_discovery can only be called for entities without device")
  else
    .ok { topic := discPre ++ str "/" ++ e.component ++ str "/" ++
            (e.unique_id.getD []) ++ str "/config",
          payload := getDiscoverPayload svc e, qos := 1, retain := true,
          global_ := true }

/- ========================================================================
   Helper lemmas
   ======================================================================== -/

/-- The number of results of filterMap equals the number of elements on
which the function succeeds. -/
theorem length_filterMap_eq_length_filter {α β : Type} (f : α → Option β) :
    ∀ l : List α, (l.filterMap f).length = (l.filter (fun a => (f a).isSome)).length := by
  intro l
  induction l with
  | nil => rfl
  | cons a rest ih =>
    cases h : f a with
    | none => simp [List.filterMap_cons, List.filter_cons, h, ih]
    | some b => simp [List.filterMap_cons, List.filter_cons, h, ih]

/-- isPrefixOf accepts any extension of the prefix. -/
theorem isPrefixOf_append (l r : Str) : l.isPrefixOf (l ++ r) = true := by
  induction l with
  | nil => simp [List.isPrefixOf]
  | cons c rest ih => simp [List.isPrefixOf, ih]

/-- A list ending in a character contains it. -/
theorem contains_concat (l : Str) (c : Char) : (l ++ [c]).contains c = true := by
  have h : c ∈ l ++ [c] := by simp
  simp only [List.contains]
  exact List.elem_iff.mpr h

/-- Looking up a freshly stored key returns the stored value. -/
theorem lookupKV_insertKV {α : Type} (k : Str) (v : α) :
    ∀ d : List (Str × α), lookupKV k (insertKV k v d) = some v := by
  intro d
  induction d with
  | nil => simp [insertKV, lookupKV]
  | cons p rest ih =>
    by_cases h : p.1 = k
    · simp [insertKV, lookupKV, h]
    · simp [insertKV, lookupKV, h, ih]

/-- Python equality is reflexive on normalized values. -/
theorem nvalEq_refl (m : NVal) : nvalEq m m = true := by
  cases m <;> simp [nvalEq]

/- ========================================================================
   C3: Loop.run_if_needed
   ======================================================================== -/

/-- C3 counterexample: the claim says that after a non-stop invocation
next_due is set to now_after_call + period; the code sets it to
now_before_call + period.  With entry time 0, a task that finishes at
time 3 and period 10, the code produces next_call 10, not 3 + 10. -/
theorem run_if_needed_next_due_counterexample :
    (runIfNeeded ⟨10, some 0, 0, 0⟩ 0 true 3).1.next_call = some 10 ∧
    (runIfNeeded ⟨10, some 0, 0, 0⟩ 0 true 3).1.next_call ≠ some (3 + 10) := by
  constructor
  · rfl
  · decide

/-- C3 (amended): run_if_needed invokes the task exactly when next_due
is set and now has reached it; a stop return clears next_due and records
no statistics; otherwise next_due becomes now_before_call + period (the
time sampled at entry, not after the call), call_count is incremented
and the call's wall-clock duration is added to cumulative_duration.  A
loop with next_due unset is never invoked. -/
theorem run_if_needed_spec (l : MLoop) (now : Int) (r : Bool) (na : Int) :
    (l.next_call = none → runIfNeeded l now r na = (l, none, false)) ∧
    (∀ nc, l.next_call = some nc → now < nc →
      runIfNeeded l now r na = (l, none, false)) ∧
    (∀ nc, l.next_call = some nc → nc ≤ now →
      runIfNeeded l now false na = ({ l with next_call := none }, none, true)) ∧
    (∀ nc, l.next_call = some nc → nc ≤ now →
      runIfNeeded l now true na =
        ({ l with
            next_call := some (now + l.interval),
            stat_call_count := l.stat_call_count + 1,
            stat_cumulative_duration := l.stat_cumulative_duration + (na - now) },
          some (now + l.interval), true)) := by
  refine ⟨?_, ?_, ?_, ?_⟩
  · intro h
    simp [runIfNeeded, h]
  · intro nc h hlt
    simp [runIfNeeded, h, not_le.mpr hlt]
  · intro nc h hle
    simp [runIfNeeded, h, hle]
  · intro nc h hle
    simp [runIfNeeded, h, hle]

/-- Witness for run_if_needed_spec at concrete loops. -/
theorem run_if_needed_spec_witness :
    runIfNeeded ⟨10, none, 0, 0⟩ 5 true 6 = (⟨10, none, 0, 0⟩, none, false) ∧
    runIfNeeded ⟨10, some 7, 0, 0⟩ 5 true 6 = (⟨10, some 7, 0, 0⟩, none, false) ∧
    runIfNeeded ⟨10, some 5, 2, 1⟩ 5 false 6 = (⟨10, none, 2, 1⟩, none, true) ∧
    runIfNeeded ⟨10, some 5, 2, 1⟩ 5 true 6 = (⟨10, some 15, 3, 2⟩, some 15, true) := by
  refine ⟨?_, ?_, ?_, ?_⟩
  · exact (run_if_needed_spec ⟨10, none, 0, 0⟩ 5 true 6).1 rfl
  · exact (run_if_needed_spec ⟨10, some 7, 0, 0⟩ 5 true 6).2.1 7 rfl (by decide)
  · exact (run_if_needed_spec ⟨10, some 5, 2, 1⟩ 5 false 6).2.2.1 5 rfl (by decide)
  · exact (run_if_needed_spec ⟨10, some 5, 2, 1⟩ 5 true 6).2.2.2 5 rfl (by decide)

/- ========================================================================
   C1: Service.publish change detection
   ======================================================================== -/

/-- C1: for scalar values publish runs the change detection of
publishScalar on the fully-qualified topic.  With only_if_changed=True a
value Python-equal to the cached one is skipped (state untouched, no
transport call) and two publishes of the same value in a row make
exactly one transport call.  With a timedelta, an unchanged value is
suppressed while now is still within the duration of the cached change
time, is re-sent once the duration has elapsed, and the cache's
(value, timestamp) pair is updated on every non-suppressed publish. -/
theorem publish_only_if_changed_dedup :
    (∀ st pfx now ext m retain qos oic glob, isScalar m = true →
      publish st pfx now ext m retain qos oic glob =
        publishScalar st pfx now ext (normal m) retain qos oic glob) ∧
    (∀ st pfx now ext msg retain qos glob,
      cachedEq st (fullTopic pfx ext glob) msg = true →
      publishScalar st pfx now ext msg retain qos .t glob = .ok st) ∧
    (∀ st pfx now1 now2 ext msg retain qos glob,
      cachedEq st (fullTopic pfx ext glob) msg = false →
      ∃ st1,
        publishScalar st pfx now1 ext msg retain qos .t glob = .ok st1 ∧
        publishScalar st1 pfx now2 ext msg retain qos .t glob = .ok st1 ∧
        st1.calls = st.calls ++ [⟨fullTopic pfx ext glob, msg, retain, qos⟩]) ∧
    (∀ st pfx now ext msg retain qos glob d lm lt,
      lookupKV (fullTopic pfx ext glob) st.last_key_values = some (.timed lm lt) →
      nvalEq lm msg = true → now < lt + d →
      publishScalar st pfx now ext msg retain qos (.dur d) glob = .ok st) ∧
    (∀ st pfx now ext msg retain qos glob d lm lt,
      lookupKV (fullTopic pfx ext glob) st.last_key_values = some (.timed lm lt) →
      nvalEq lm msg = true → lt + d ≤ now →
      publishScalar st pfx now ext msg retain qos (.dur d) glob =
        .ok ⟨insertKV (fullTopic pfx ext glob) (.timed msg now) st.last_key_values,
             st.calls ++ [⟨fullTopic pfx ext glob, msg, retain, qos⟩]⟩) ∧
    (∀ st st' pfx now ext msg retain qos glob d,
      publishScalar st pfx now ext msg retain qos (.dur d) glob = .ok st' →
      st'.calls ≠ st.calls →
      lookupKV (fullTopic pfx ext glob) st'.last_key_values =
        some (.timed msg now)) := by
  refine ⟨?_, ?_, ?_, ?_, ?_, ?_⟩
  · intro st pfx now ext m retain qos oic glob h
    cases m <;> first
      | rfl
      | simp [isScalar] at h
  · intro st pfx now ext msg retain qos glob h
    cases hl : lookupKV (fullTopic pfx ext glob) st.last_key_values with
    | none => simp [cachedEq, hl] at h
    | some ce =>
      cases ce with
      | plain lm =>
        have hv : nvalEq lm msg = true := by simpa [cachedEq, hl] using h
        simp [publishScalar, hl, hv]
      | timed lm lt => simp [cachedEq, hl] at h
  · intro st pfx now1 now2 ext msg retain qos glob h
    refine ⟨⟨insertKV (fullTopic pfx ext glob) (.plain msg) st.last_key_values,
             st.calls ++ [⟨fullTopic pfx ext glob, msg, retain, qos⟩]⟩, ?_, ?_, rfl⟩
    · cases hl : lookupKV (fullTopic pfx ext glob) st.last_key_values with
      | none => simp [publishScalar, hl]
      | some ce =>
        cases ce with
        | plain lm =>
          have hv : nvalEq lm msg = false := by simpa [cachedEq, hl] using h
          simp [publishScalar, hl, hv]
        | timed lm lt => simp [publishScalar, hl]
    · simp [publishScalar, lookupKV_insertKV, nvalEq_refl]
  · intro st pfx now ext msg retain qos glob d lm lt hl hv hlt
    simp [publishScalar, hl, hv, hlt]
  · intro st pfx now ext msg retain qos glob d lm lt hl hv hge
    have hf : ¬ (lt + d > now) := not_lt.mpr hge
    simp [publishScalar, hl, hf]
  · intro st st' pfx now ext msg retain qos glob d h hne
    cases hl : lookupKV (fullTopic pfx ext glob) st.last_key_values with
    | none =>
      simp [publishScalar, hl] at h
      rw [← h]
      simp [lookupKV_insertKV]
    | some ce =>
      cases ce with
      | plain lm => simp [publishScalar, hl] at h
      | timed lm lt =>
        by_cases hc : (nvalEq lm msg && decide (lt + d > now)) = true
        · simp [publishScalar, hl, hc] at h
          rw [← h] at hne
          exact absurd rfl hne
        · have hc' : (nvalEq lm msg && decide (lt + d > now)) = false :=
            Bool.eq_false_iff.mpr hc
          simp [publishScalar, hl, hc'] at h
          rw [← h]
          simp [lookupKV_insertKV]

/-- Concrete cache state holding a bare cached value for topic p/t. -/
def pubStA : PubState := ⟨[(str "p/t", .plain (.nstr (str "v")))], []⟩

/-- Concrete cache state holding a (value, timestamp) pair for topic
p/t with change time 0. -/
def pubStT : PubState := ⟨[(str "p/t", .timed (.nstr (str "v")) 0)], []⟩

/-- Witness for publish_only_if_changed_dedup at concrete inputs. -/
theorem publish_only_if_changed_dedup_witness :
    publish ⟨[], []⟩ (str "p/") 0 (str "t") (.vstr (str "v")) false 0 .t false =
      publishScalar ⟨[], []⟩ (str "p/") 0 (str "t") (.nstr (str "v")) false 0 .t false ∧
    publishScalar pubStA (str "p/") 5 (str "t") (.nstr (str "v")) false 0 .t false =
      .ok pubStA ∧
    publishScalar pubStT (str "p/") 3 (str "t") (.nstr (str "v")) false 0 (.dur 5) false =
      .ok pubStT ∧
    publishScalar pubStT (str "p/") 7 (str "t") (.nstr (str "v")) false 0 (.dur 5) false =
      .ok ⟨[(str "p/t", .timed (.nstr (str "v")) 7)],
           [⟨str "p/t", .nstr (str "v"), false, 0⟩]⟩ := by
  refine ⟨?_, ?_, ?_, ?_⟩
  · exact publish_only_if_changed_dedup.1 ⟨[], []⟩ (str "p/") 0 (str "t")
      (.vstr (str "v")) false 0 .t false rfl
  · exact publish_only_if_changed_dedup.2.1 pubStA (str "p/") 5 (str "t")
      (.nstr (str "v")) false 0 false (by decide)
  · exact publish_only_if_changed_dedup.2.2.2.1 pubStT (str "p/") 3 (str "t")
      (.nstr (str "v")) false 0 false 5 (.nstr (str "v")) 0 (by decide) (by decide)
      (by decide)
  · have h := publish_only_if_changed_dedup.2.2.2.2.1 pubStT (str "p/") 7 (str "t")
      (.nstr (str "v")) false 0 false 5 (.nstr (str "v")) 0 (by decide) (by decide)
      (by decide)
    exact h.trans (by rfl)

/- ========================================================================
   C2: router fan-out and wildcard matching
   ======================================================================== -/

/-- C2: the router invokes one handler per matching registration (it
never stops at the first match, so two overlapping registrations both
fire); a local registration whose pattern ends in the wildcard marker
matches by prefix and receives the part of the absolute topic after the
matched prefix as suffix; a pattern without the wildcard marker fires
exactly on string equality of the topic. -/
theorem route_fanout_wildcard :
    (∀ gh lh pfx t p,
      ((onMessage gh lh pfx t p).1).length =
        ((allHandlers gh lh pfx).filter
          (fun r => (matchOne t (pyStrip p) r).isSome)).length) ∧
    (∀ gh lh pfx t p r1 r2 i1 i2,
      r1 ∈ allHandlers gh lh pfx → r2 ∈ allHandlers gh lh pfx →
      matchOne t (pyStrip p) r1 = some i1 →
      matchOne t (pyStrip p) r2 = some i2 →
      i1 ∈ (onMessage gh lh pfx t p).1 ∧ i2 ∈ (onMessage gh lh pfx t p).1) ∧
    (∀ gh lh pfx w rest h p,
      (w ++ ['#'], h) ∈ lh →
      Invocation.withSuffix h (pyStrip p) rest ∈
        (onMessage gh lh pfx (pfx ++ w ++ rest) p).1) ∧
    (∀ pat h t pay i, pat.contains '#' = false →
      (matchOne t pay (pat, h) = some i ↔ pat = t ∧ i = .plain h pay)) := by
  refine ⟨?_, ?_, ?_, ?_⟩
  · intro gh lh pfx t p
    simpa [onMessage] using
      length_filterMap_eq_length_filter (matchOne t (pyStrip p)) (allHandlers gh lh pfx)
  · intro gh lh pfx t p r1 r2 i1 i2 h1 h2 m1 m2
    constructor
    · simp only [onMessage]
      exact List.mem_filterMap.mpr ⟨r1, h1, m1⟩
    · simp only [onMessage]
      exact List.mem_filterMap.mpr ⟨r2, h2, m2⟩
  · intro gh lh pfx w rest h p hmem
    have hmem2 : ((pfx ++ w) ++ ['#'], h) ∈ allHandlers gh lh pfx := by
      have hx : (pfx ++ (w ++ ['#']), h) ∈ lh.map (fun r => (pfx ++ r.1, r.2)) :=
        List.mem_map.mpr ⟨(w ++ ['#'], h), hmem, rfl⟩
      have hx2 := List.mem_append_right gh hx
      simpa [allHandlers, List.append_assoc] using hx2
    have hm : matchOne (pfx ++ w ++ rest) (pyStrip p) ((pfx ++ w) ++ ['#'], h) =
        some (.withSuffix h (pyStrip p) rest) := by
      simp [matchOne, contains_concat, List.dropLast_concat, isPrefixOf_append,
        List.drop_left]
    simp only [onMessage]
    exact List.mem_filterMap.mpr ⟨((pfx ++ w) ++ ['#'], h), hmem2, hm⟩
  · intro pat h t pay i hc
    have hc2 : '#' ∉ pat := by simpa using hc
    constructor
    · intro hm
      by_cases he : pat = t
      · subst he
        refine ⟨rfl, ?_⟩
        simp [matchOne, hc2] at hm
        exact hm.symm
      · simp [matchOne, hc2, he] at hm
    · rintro ⟨he, hi⟩
      subst he
      simp [matchOne, hc2, hi]

/-- Witness for route_fanout_wildcard: concrete wildcard routing,
overlap fan-out, and exact matching. -/
theorem route_fanout_wildcard_witness :
    Invocation.withSuffix 7 (pyStrip (str "x")) (str "bar/baz") ∈
      (onMessage [] [(str "foo/" ++ ['#'], 7)] (str "s/")
        (str "s/" ++ str "foo/" ++ str "bar/baz") (str "x")).1 ∧
    Invocation.plain 3 (pyStrip (str "x")) ∈
      (onMessage [(str "a", 3), (str "a" ++ ['#'], 4)] [] (str "s/")
        (str "a") (str "x")).1 ∧
    Invocation.withSuffix 4 (pyStrip (str "x")) [] ∈
      (onMessage [(str "a", 3), (str "a" ++ ['#'], 4)] [] (str "s/")
        (str "a") (str "x")).1 ∧
    matchOne (str "a") (str "p") (str "a", 3) = some (.plain 3 (str "p")) := by
  refine ⟨?_, ?_, ?_, ?_⟩
  · exact route_fanout_wildcard.2.2.1 [] [(str "foo/" ++ ['#'], 7)] (str "s/")
      (str "foo/") (str "bar/baz") 7 (str "x") (by decide)
  · exact (route_fanout_wildcard.2.1 [(str "a", 3), (str "a" ++ ['#'], 4)] []
      (str "s/") (str "a") (str "x") (str "a", 3) (str "a" ++ ['#'], 4)
      (.plain 3 (pyStrip (str "x"))) (.withSuffix 4 (pyStrip (str "x")) [])
      (by decide) (by decide) (by decide) (by decide)).1
  · exact (route_fanout_wildcard.2.1 [(str "a", 3), (str "a" ++ ['#'], 4)] []
      (str "s/") (str "a") (str "x") (str "a", 3) (str "a" ++ ['#'], 4)
      (.plain 3 (pyStrip (str "x"))) (.withSuffix 4 (pyStrip (str "x")) [])
      (by decide) (by decide) (by decide) (by decide)).2
  · exact (route_fanout_wildcard.2.2.2 (str "a") 3 (str "a") (str "p")
      (.plain 3 (str "p")) (by decide)).mpr ⟨rfl, rfl⟩

/- ========================================================================
   C4: the reserved enabled handler
   ======================================================================== -/

/-- C4 evaluation at the failing input: __init__ registers the reserved
enabled pattern with the BOUND method self._on_enable; routing a
payload-1 message on the prefixed enabled topic selects exactly that
registration; but executing the invocation performs the exact-match
call handler(self, payload), which hands the bound two-parameter method
three positional arguments and raises TypeError, while a plain
class-level handler under the same call succeeds.  The handler body
(onEnable), which would set the flag to True for payload 1, is never
reached, so the enabled flag is never set by delivery. -/
theorem enabled_delivery_typeerror :
    (str "enabled", 0) ∈ initMqttHandlers [] 0 ∧
    (onMessage [] (initMqttHandlers [] 0) (str "service/echo/")
        (str "service/echo/" ++ str "enabled") (str "1")).1 =
      [.plain 0 (pyStrip (str "1"))] ∧
    runInvocation (fun _ => onEnableCallable) (.plain 0 (pyStrip (str "1"))) =
      .error (str "TypeError") ∧
    runInvocation (fun _ => classHandlerCallable) (.plain 0 (pyStrip (str "1"))) =
      .ok () ∧
    onEnable (pyStrip (str "1")) = true ∧
    onEnable (str "0") = false := by
  refine ⟨by decide, by decide, rfl, rfl, by decide, by decide⟩

/- ========================================================================
   Entity construction helper lemmas
   ======================================================================== -/

/-- Both id derivations composed, as they run inside the base
initializer. -/
def deriveIds (dev : Option Str) (svc : HAService) (e : EntData) : EntData :=
  deriveUniqueId dev svc (deriveDefaultId e)

/-- deriveDefaultId touches only default_entity_id and always leaves it
present. -/
theorem deriveDefaultId_pres (e : EntData) :
    (deriveDefaultId e).state_topic_sfx = e.state_topic_sfx ∧
    (deriveDefaultId e).callbacks = e.callbacks ∧
    (deriveDefaultId e).options = e.options ∧
    (deriveDefaultId e).precision = e.precision ∧
    (deriveDefaultId e).temperature_unit = e.temperature_unit ∧
    (deriveDefaultId e).payload_on = e.payload_on ∧
    (deriveDefaultId e).payload_off = e.payload_off ∧
    (deriveDefaultId e).unique_id = e.unique_id ∧
    (deriveDefaultId e).default_entity_id.isSome = true := by
  unfold deriveDefaultId
  cases h : e.default_entity_id <;> simp [h]

/-- deriveUniqueId touches only unique_id and always leaves it
present. -/
theorem deriveUniqueId_pres (dev : Option Str) (svc : HAService) (e : EntData) :
    (deriveUniqueId dev svc e).state_topic_sfx = e.state_topic_sfx ∧
    (deriveUniqueId dev svc e).callbacks = e.callbacks ∧
    (deriveUniqueId dev svc e).options = e.options ∧
    (deriveUniqueId dev svc e).precision = e.precision ∧
    (deriveUniqueId dev svc e).temperature_unit = e.temperature_unit ∧
    (deriveUniqueId dev svc e).payload_on = e.payload_on ∧
    (deriveUniqueId dev svc e).payload_off = e.payload_off ∧
    (deriveUniqueId dev svc e).default_entity_id = e.default_entity_id ∧
    (deriveUniqueId dev svc e).unique_id.isSome = true := by
  unfold deriveUniqueId
  cases h : e.unique_id with
  | none => cases dev <;> simp [h]
  | some u => simp [h]

/-- An already present default_entity_id is kept. -/
theorem deriveDefaultId_of_isSome (e : EntData)
    (h : e.default_entity_id.isSome = true) : deriveDefaultId e = e := by
  unfold deriveDefaultId
  cases h2 : e.default_entity_id with
  | none => rw [h2] at h; simp at h
  | some v => simp

/-- An already present unique_id is kept. -/
theorem deriveUniqueId_of_isSome (dev : Option Str) (svc : HAService)
    (e : EntData) (h : e.unique_id.isSome = true) : deriveUniqueId dev svc e = e := by
  unfold deriveUniqueId
  cases h2 : e.unique_id with
  | none => rw [h2] at h; simp at h
  | some v => simp

/-- The base initializer for a device-owned entity: it derives the ids,
registers the callback handlers and appends the entity to the device's
entity list. -/
theorem basePostInit_dev_eq (svc : HAService) (du : Str) (e : EntData) (w : World) :
    basePostInit svc (some du) false e w =
      .ok (deriveIds (some du) svc e,
        ⟨w.devEntities ++ [deriveIds (some du) svc e],
         w.handlers ++ regsOf (deriveIds (some du) svc e).callbacks,
         w.haEntities⟩) := by
  simp [basePostInit, deriveIds]

/-- deriveIds is idempotent: both ids are present afterwards, so a
second pass keeps the entity unchanged. -/
theorem deriveIds_idem (dev dev2 : Option Str) (svc : HAService) (e : EntData) :
    deriveIds dev2 svc (deriveIds dev svc e) = deriveIds dev svc e := by
  unfold deriveIds
  have h1 : (deriveUniqueId dev svc (deriveDefaultId e)).default_entity_id.isSome = true := by
    rw [(deriveUniqueId_pres dev svc (deriveDefaultId e)).2.2.2.2.2.2.2.1]
    exact (deriveDefaultId_pres e).2.2.2.2.2.2.2.2
  have h2 : (deriveUniqueId dev svc (deriveDefaultId e)).unique_id.isSome = true :=
    (deriveUniqueId_pres dev svc (deriveDefaultId e)).2.2.2.2.2.2.2.2
  rw [deriveDefaultId_of_isSome _ h1, deriveUniqueId_of_isSome _ _ _ h2]

/-- Entity.__post_init__ for a device-owned entity with a non-empty
state topic suffix: the derived entity is appended to the device's
entity list twice and its callback registrations are added twice. -/
theorem entityPostInit_dev_eq (svc : HAService) (du : Str) (e : EntData) (w : World)
    (h : e.state_topic_sfx ≠ []) :
    entityPostInit svc (some du) false e w =
      .ok (deriveIds (some du) svc e,
        ⟨w.devEntities ++ [deriveIds (some du) svc e, deriveIds (some du) svc e],
         w.handlers ++ regsOf (deriveIds (some du) svc e).callbacks
           ++ regsOf (deriveIds (some du) svc e).callbacks,
         w.haEntities⟩) := by
  have hsfx : (deriveIds (some du) svc e).state_topic_sfx = e.state_topic_sfx := by
    unfold deriveIds
    rw [(deriveUniqueId_pres (some du) svc (deriveDefaultId e)).1]
    exact (deriveDefaultId_pres e).1
  have hds : (deriveIds (some du) svc e).default_entity_id.isSome = true := by
    unfold deriveIds
    rw [(deriveUniqueId_pres (some du) svc (deriveDefaultId e)).2.2.2.2.2.2.2.1]
    exact (deriveDefaultId_pres e).2.2.2.2.2.2.2.2
  obtain ⟨v, hv⟩ := Option.isSome_iff_exists.mp hds
  unfold entityPostInit
  rw [basePostInit_dev_eq]
  simp only [bind, Except.bind]
  rw [hsfx]
  simp only [h, if_neg, ite_false]
  rw [hv]
  have h2 := basePostInit_dev_eq svc du (deriveIds (some du) svc e)
    ⟨w.devEntities ++ [deriveIds (some du) svc e],
     w.handlers ++ regsOf (deriveIds (some du) svc e).callbacks, w.haEntities⟩
  rw [deriveIds_idem] at h2
  rw [h2]
  have hcb : regsOf (deriveIds (some du) svc (deriveIds (some du) svc e)).callbacks =
      regsOf (deriveIds (some du) svc e).callbacks := by
    rw [deriveIds_idem]
  simp [List.append_assoc]

/- ========================================================================
   C5: construction-time validation errors
   ======================================================================== -/

/-- C5: construction fails exactly at the contract violations: an entity
with both device and service set, or with neither, raises; a Select with
a falsy options list raises after the Entity initializer; a
ClimateController whose precision is set to anything outside the three
canonical strings raises. -/
theorem entity_validation_errors :
    (∀ svc du e w, basePostInit svc (some du) true e w =
      .error (str "Only one of device or service may be set for an entity")) ∧
    (∀ svc e w, basePostInit svc none false e w =
      .error (str "Either device or service must be set for an entity")) ∧
    (∀ svc du e w, e.state_topic_sfx ≠ [] →
      (e.options = none ∨ e.options = some []) →
      selectPostInit svc (some du) false e w =
        .error (str "options must be set for select entity")) ∧
    (∀ svc du e w p, e.precision = some p →
      ¬ (p = str "0.1" ∨ p = str "0.5" ∨ p = str "1.0") →
      climateControllerPostInit svc (some du) false e w =
        .error (str "precision must be one of 0.1, 0.5, 1.0")) := by
  refine ⟨?_, ?_, ?_, ?_⟩
  · intro svc du e w
    simp [basePostInit]
  · intro svc e w
    simp [basePostInit]
  · intro svc du e w h1 h2
    have hopt : (deriveIds (some du) svc e).options = e.options := by
      unfold deriveIds
      rw [(deriveUniqueId_pres (some du) svc (deriveDefaultId e)).2.2.1]
      exact (deriveDefaultId_pres e).2.2.1
    unfold selectPostInit
    rw [entityPostInit_dev_eq svc du e w h1]
    simp only [bind, Except.bind]
    rcases h2 with h2 | h2 <;> simp [hopt, h2]
  · intro svc du e w p hp hbad
    have hprec : (deriveIds (some du) svc e).precision = e.precision := by
      unfold deriveIds
      rw [(deriveUniqueId_pres (some du) svc (deriveDefaultId e)).2.2.2.1]
      exact (deriveDefaultId_pres e).2.2.2.1
    unfold climateControllerPostInit
    rw [basePostInit_dev_eq]
    simp only [bind, Except.bind]
    rw [hprec, hp]
    simp [hbad]

/-- Concrete service used by the witnesses and counterexamples. -/
def svcW : HAService := ⟨str "echo", str "service/echo/", str "1", str "0"⟩

/-- Concrete empty construction surroundings. -/
def w0 : World := ⟨[], [], []⟩

/-- Witness for entity_validation_errors at concrete entities. -/
theorem entity_validation_errors_witness :
    basePostInit svcW (some (str "echo_D")) true
      { component := str "sensor", name := str "S" } w0 =
      .error (str "Only one of device or service may be set for an entity") ∧
    basePostInit svcW none false
      { component := str "sensor", name := str "S" } w0 =
      .error (str "Either device or service must be set for an entity") ∧
    selectPostInit svcW (some (str "echo_D")) false
      { component := str "select", name := str "Sel",
        state_topic_sfx := str "sel/state", options := some [] } w0 =
      .error (str "options must be set for select entity") ∧
    climateControllerPostInit svcW (some (str "echo_D")) false
      { component := str "climate", name := str "Cl",
        precision := some (str "0.2") } w0 =
      .error (str "precision must be one of 0.1, 0.5, 1.0") := by
  refine ⟨?_, ?_, ?_, ?_⟩
  · exact entity_validation_errors.1 svcW (str "echo_D")
      { component := str "sensor", name := str "S" } w0
  · exact entity_validation_errors.2.1 svcW
      { component := str "sensor", name := str "S" } w0
  · exact entity_validation_errors.2.2.1 svcW (str "echo_D")
      { component := str "select", name := str "Sel",
        state_topic_sfx := str "sel/state", options := some [] } w0
      (by decide) (Or.inr rfl)
  · exact entity_validation_errors.2.2.2 svcW (str "echo_D")
      { component := str "climate", name := str "Cl",
        precision := some (str "0.2") } w0 (str "0.2") rfl (by decide)

/- ========================================================================
   C9: the Entity initializer runs the base initializer twice
   ======================================================================== -/

/-- C9: for a device-owned entity with a state topic, construction
appends the entity to the device's entity list twice and registers every
present callback twice, so one inbound message matching the callback's
topic suffix invokes the callback two times. -/
theorem entity_double_init :
    (∀ svc du e w, e.state_topic_sfx ≠ [] →
      entityPostInit svc (some du) false e w =
        .ok (deriveIds (some du) svc e,
          ⟨w.devEntities ++ [deriveIds (some du) svc e, deriveIds (some du) svc e],
           w.handlers ++ regsOf e.callbacks ++ regsOf e.callbacks,
           w.haEntities⟩)) ∧
    (∀ svc du name sfx cb raw, sfx ≠ [] →
      (svc.pfx ++ sfx).contains '#' = false →
      (onMessage []
        (((entityPostInit svc (some du) false
            { component := str "switch", name := name, state_topic_sfx := sfx,
              callbacks := [(sfx, some cb)] } w0).toOption.map
          (fun pr => pr.2.handlers)).getD [])
        svc.pfx (svc.pfx ++ sfx) raw).1 =
          [.plain cb (pyStrip raw), .plain cb (pyStrip raw)]) := by
  have hcb : ∀ (dev : Option Str) (svc : HAService) (e : EntData),
      (deriveIds dev svc e).callbacks = e.callbacks := by
    intro dev svc e
    unfold deriveIds
    rw [(deriveUniqueId_pres dev svc (deriveDefaultId e)).2.1]
    exact (deriveDefaultId_pres e).2.1
  constructor
  · intro svc du e w h
    rw [entityPostInit_dev_eq svc du e w h, hcb]
  · intro svc du name sfx cb raw hs hc
    have hc2 : '#' ∉ svc.pfx ++ sfx := by simpa using hc
    have hmain := entityPostInit_dev_eq svc du
      { component := str "switch", name := name, state_topic_sfx := sfx,
        callbacks := [(sfx, some cb)] } w0 hs
    rw [hcb] at hmain
    rw [hmain]
    simp [w0, regsOf, onMessage, allHandlers, matchOne, hc2, Except.toOption]

/-- Concrete switch-like entity with one command callback. -/
def entSw : EntData :=
  { component := str "switch", name := str "Sw",
    state_topic_sfx := str "sw/cmd", callbacks := [(str "sw/cmd", some 5)] }

/-- Witness for entity_double_init: the concrete entity is appended
twice and its callback fires twice for one message. -/
theorem entity_double_init_witness :
    entityPostInit svcW (some (str "echo_D")) false entSw w0 =
      .ok (deriveIds (some (str "echo_D")) svcW entSw,
        ⟨w0.devEntities ++ [deriveIds (some (str "echo_D")) svcW entSw,
           deriveIds (some (str "echo_D")) svcW entSw],
         w0.handlers ++ regsOf entSw.callbacks ++ regsOf entSw.callbacks,
         w0.haEntities⟩) ∧
    (onMessage []
      (((entityPostInit svcW (some (str "echo_D")) false
          { component := str "switch", name := str "Sw",
            state_topic_sfx := str "sw/cmd",
            callbacks := [(str "sw/cmd", some 5)] } w0).toOption.map
        (fun pr => pr.2.handlers)).getD [])
      svcW.pfx (svcW.pfx ++ str "sw/cmd") (str "on")).1 =
        [.plain 5 (pyStrip (str "on")), .plain 5 (pyStrip (str "on"))] := by
  constructor
  · exact entity_double_init.1 svcW (str "echo_D") entSw w0 (by decide)
  · exact entity_double_init.2 svcW (str "echo_D") (str "Sw") (str "sw/cmd") 5
      (str "on") (by decide) (by decide)

/- ========================================================================
   C8: BinarySensor/Switch payload defaults
   ======================================================================== -/

/-- deriveIds leaves the payload pair untouched. -/
theorem deriveIds_payload (dev : Option Str) (svc : HAService) (e : EntData) :
    (deriveIds dev svc e).payload_on = e.payload_on ∧
    (deriveIds dev svc e).payload_off = e.payload_off := by
  unfold deriveIds
  constructor
  · rw [(deriveUniqueId_pres dev svc (deriveDefaultId e)).2.2.2.2.2.1]
    exact (deriveDefaultId_pres e).2.2.2.2.2.1
  · rw [(deriveUniqueId_pres dev svc (deriveDefaultId e)).2.2.2.2.2.2.1]
    exact (deriveDefaultId_pres e).2.2.2.2.2.2.1

/-- C8 counterexample: a Switch constructed without overrides keeps its
dataclass defaults on/off and does NOT pick up the service-wide
constants; under the concrete service whose PAYLOAD_ON is 1, the
constructed switch's payload_on is the literal on. -/
theorem switch_payload_default_counterexample :
    ((switchPostInit svcW (some (str "echo_D")) false
        { component := str "switch", name := str "Sw2",
          state_topic_sfx := str "sw/state",
          payload_on := some (str "on"), payload_off := some (str "off") }
        w0).toOption.map (fun pr => pr.1.payload_on)) = some (some (str "on")) ∧
    svcW.PAYLOAD_ON = str "1" ∧
    some (some (str "on")) ≠ some (some svcW.PAYLOAD_ON) := by
  refine ⟨by decide, by decide, by decide⟩

/-- C8 (amended): a BinarySensor constructed without payload overrides
defaults its pair from the service-wide constants; a Switch constructed
without overrides keeps the literal dataclass defaults on/off, and the
service-wide fallback applies to a Switch only when the caller
explicitly passes None for the payloads. -/
theorem payload_defaults_spec :
    (∀ svc du e w, e.state_topic_sfx ≠ [] →
      e.payload_on = none → e.payload_off = none →
      ((binarySensorPostInit svc (some du) false e w).toOption.map
        (fun pr => (pr.1.payload_on, pr.1.payload_off))) =
        some (some svc.PAYLOAD_ON, some svc.PAYLOAD_OFF)) ∧
    (∀ svc du e w, e.state_topic_sfx ≠ [] →
      e.payload_on = some (str "on") → e.payload_off = some (str "off") →
      ((switchPostInit svc (some du) false e w).toOption.map
        (fun pr => (pr.1.payload_on, pr.1.payload_off))) =
        some (some (str "on"), some (str "off"))) ∧
    (∀ svc du e w, e.state_topic_sfx ≠ [] →
      e.payload_on = none → e.payload_off = none →
      ((switchPostInit svc (some du) false e w).toOption.map
        (fun pr => (pr.1.payload_on, pr.1.payload_off))) =
        some (some svc.PAYLOAD_ON, some svc.PAYLOAD_OFF)) := by
  refine ⟨?_, ?_, ?_⟩
  · intro svc du e w h1 hon hoff
    have hp := deriveIds_payload (some du) svc e
    unfold binarySensorPostInit
    rw [entityPostInit_dev_eq svc du e w h1]
    simp [bind, Except.bind, pure, Except.pure, hp.1, hp.2, hon, hoff,
      Except.toOption]
  · intro svc du e w h1 hon hoff
    have hp := deriveIds_payload (some du) svc e
    unfold switchPostInit
    rw [entityPostInit_dev_eq svc du e w h1]
    simp [bind, Except.bind, pure, Except.pure, hp.1, hp.2, hon, hoff,
      Except.toOption]
  · intro svc du e w h1 hon hoff
    have hp := deriveIds_payload (some du) svc e
    unfold switchPostInit
    rw [entityPostInit_dev_eq svc du e w h1]
    simp [bind, Except.bind, pure, Except.pure, hp.1, hp.2, hon, hoff,
      Except.toOption]

/-- Witness for payload_defaults_spec at concrete entities. -/
theorem payload_defaults_spec_witness :
    ((binarySensorPostInit svcW (some (str "echo_D")) false
        { component := str "binary_sensor", name := str "B",
          state_topic_sfx := str "b/state" } w0).toOption.map
      (fun pr => (pr.1.payload_on, pr.1.payload_off))) =
      some (some svcW.PAYLOAD_ON, some svcW.PAYLOAD_OFF) ∧
    ((switchPostInit svcW (some (str "echo_D")) false
        { component := str "switch", name := str "Sw3",
          state_topic_sfx := str "s3/state",
          payload_on := some (str "on"), payload_off := some (str "off") }
        w0).toOption.map
      (fun pr => (pr.1.payload_on, pr.1.payload_off))) =
      some (some (str "on"), some (str "off")) ∧
    ((switchPostInit svcW (some (str "echo_D")) false
        { component := str "switch", name := str "Sw4",
          state_topic_sfx := str "s4/state",
          payload_on := none, payload_off := none } w0).toOption.map
      (fun pr => (pr.1.payload_on, pr.1.payload_off))) =
      some (some svcW.PAYLOAD_ON, some svcW.PAYLOAD_OFF) := by
  refine ⟨?_, ?_, ?_⟩
  · exact payload_defaults_spec.1 svcW (str "echo_D")
      { component := str "binary_sensor", name := str "B",
        state_topic_sfx := str "b/state" } w0 (by decide) rfl rfl
  · exact payload_defaults_spec.2.1 svcW (str "echo_D")
      { component := str "switch", name := str "Sw3",
        state_topic_sfx := str "s3/state",
        payload_on := some (str "on"), payload_off := some (str "off") } w0
      (by decide) rfl rfl
  · exact payload_defaults_spec.2.2 svcW (str "echo_D")
      { component := str "switch", name := str "Sw4",
        state_topic_sfx := str "s4/state",
        payload_on := none, payload_off := none } w0 (by decide) rfl rfl

/- ========================================================================
   C6: device-scoped discovery document
   ======================================================================== -/

/-- C6: a device with two owned entities (also when each was appended
twice by the double initializer) produces exactly one discovery call
whose components map has exactly the two derived unique ids as keys,
each mapped to the entity's serialized payload, and whose first
availability clause points at the service's liveness topic. -/
theorem device_discovery_components (svc : HAService) (dev : HADevice)
    (discPre : Str) (e1 e2 : EntData) (u1 u2 : Str)
    (h1 : e1.unique_id = some u1) (h2 : e2.unique_id = some u2) (hne : u1 ≠ u2) :
    publishDiscovery svc dev [e1, e2] discPre =
      [{ topic := discPre ++ str "/device/" ++ dev.uid ++ str "/config",
         doc := { device := dev,
                  origin_name := str "MIQRO service " ++ svc.SERVICE_NAME,
                  availability := [⟨svc.willtopic, str "1", str "0"⟩],
                  components := [(u1, getDiscoverPayload svc e1),
                                 (u2, getDiscoverPayload svc e2)] },
         qos := 1, retain := true, global_ := true }] ∧
    publishDiscovery svc dev [e1, e1, e2, e2] discPre =
      publishDiscovery svc dev [e1, e2] discPre := by
  have hbe : (u1 == u2) = false := beq_eq_false_iff_ne.mpr hne
  have hins1 : ∀ (p : List (Str × PVal)), dictInsert u1 p [] = [(u1, p)] := by
    intro p
    simp [dictInsert]
  have hins2 : ∀ (p1 p2 : List (Str × PVal)),
      dictInsert u2 p2 [(u1, p1)] = [(u1, p1), (u2, p2)] := by
    intro p1 p2
    simp [dictInsert, hbe]
  have hover1 : ∀ (p : List (Str × PVal)), dictInsert u1 p [(u1, p)] = [(u1, p)] := by
    intro p
    simp [dictInsert]
  have hover2 : ∀ (p1 p2 : List (Str × PVal)),
      dictInsert u2 p2 [(u1, p1), (u2, p2)] = [(u1, p1), (u2, p2)] := by
    intro p1 p2
    simp [dictInsert, hbe]
    exact fun h => absurd h hne
  constructor
  · unfold publishDiscovery
    simp only [List.foldl_cons, List.foldl_nil, h1, h2, Option.getD_some,
      hins1, hins2]
  · unfold publishDiscovery
    simp only [List.foldl_cons, List.foldl_nil, h1, h2, Option.getD_some,
      hins1, hins2, hover1, hover2]

/-- Concrete entities with distinct derived unique ids. -/
def entA : EntData :=
  { component := str "sensor", name := str "A",
    unique_id := some (str "echo_Demo__sensor_A"),
    state_topic_sfx := str "a/state" }

/-- Second concrete entity. -/
def entB : EntData :=
  { component := str "sensor", name := str "B",
    unique_id := some (str "echo_Demo__sensor_B"),
    state_topic_sfx := str "b/state" }

/-- Concrete device owned by the concrete service. -/
def devW : HADevice := mkDevice svcW (str "Demo")

/-- Witness for device_discovery_components at the concrete device with
two entities. -/
theorem device_discovery_components_witness :
    publishDiscovery svcW devW [entA, entB] (str "homeassistant") =
      [{ topic := str "homeassistant" ++ str "/device/" ++ devW.uid ++ str "/config",
         doc := { device := devW,
                  origin_name := str "MIQRO service " ++ svcW.SERVICE_NAME,
                  availability := [⟨svcW.willtopic, str "1", str "0"⟩],
                  components := [(str "echo_Demo__sensor_A", getDiscoverPayload svcW entA),
                                 (str "echo_Demo__sensor_B", getDiscoverPayload svcW entB)] },
         qos := 1, retain := true, global_ := true }] ∧
    publishDiscovery svcW devW [entA, entA, entB, entB] (str "homeassistant") =
      publishDiscovery svcW devW [entA, entB] (str "homeassistant") := by
  exact device_discovery_components svcW devW (str "homeassistant") entA entB
    (str "echo_Demo__sensor_A") (str "echo_Demo__sensor_B") rfl rfl (by decide)

/- ========================================================================
   C7: delivery flags of discovery publications
   ======================================================================== -/

/-- Concrete device-less entity. -/
def entND : EntData :=
  { component := str "sensor", name := str "ND",
    unique_id := some (str "echo__sensor_ND") }

/-- Concrete empty publish pipeline state. -/
def pubSt0 : PubState := ⟨[], []⟩

/-- C7 evaluation: both discovery paths request qos 1 from publish_json,
but publish_json does not forward its qos argument to publish, so the
transport call carries qos 0 (QOS_MAX_ONCE) instead of the requested
at-least-once delivery; the retained flag does survive. -/
theorem discovery_publish_qos_bug :
    ((publishDiscovery svcW devW [] (str "homeassistant")).map
      (fun c => (c.qos, c.retain))) = [(1, true)] ∧
    ((entityPublishDiscovery svcW none entND (str "homeassistant")).toOption.map
      (fun c => (c.qos, c.retain))) = some (1, true) ∧
    publish_json pubSt0 (str "service/echo/") 0
      (str "homeassistant/device/echo_Demo/config") (.vdict []) true 1 .f true =
      .ok ⟨[], [⟨str "homeassistant/device/echo_Demo/config",
                 .nstr (str "\x7b\x7d"), true, 0⟩]⟩ ∧
    (0 : Nat) ≠ QOS_AT_LEAST_ONCE := by
  refine ⟨rfl, rfl, rfl, by decide⟩

/- ========================================================================
   C10: dict/list publishes drop global_ and qos
   ======================================================================== -/

/-- C10: for a mapping or sequence value, publish delegates to
publish_json with global_ left at False, publish_json ignores the qos it
received, and the transport call therefore goes to the service-prefixed
topic with qos QOS_MAX_ONCE whatever the caller asked for. -/
theorem publish_dict_drops_global_qos :
    (∀ st pfx now ext l retain qos oic glob,
      publish st pfx now ext (.vdict l) retain qos oic glob =
        publish_json st pfx now ext (.vdict l) retain qos oic false) ∧
    (∀ st pfx now ext l retain qos oic glob,
      publish st pfx now ext (.vlist l) retain qos oic glob =
        publish_json st pfx now ext (.vlist l) retain qos oic false) ∧
    (∀ st pfx now ext mj retain qos oic glob,
      publish_json st pfx now ext mj retain qos oic glob =
        publish_json st pfx now ext mj retain QOS_MAX_ONCE oic glob) ∧
    (∀ st pfx now ext l retain qos glob,
      publish st pfx now ext (.vdict l) retain qos .f glob =
        .ok { st with calls := st.calls ++
          [⟨pfx ++ ext, .nstr (dumps (roundFloats (.vdict l))), retain,
            QOS_MAX_ONCE⟩] }) := by
  refine ⟨?_, ?_, ?_, ?_⟩
  · intro st pfx now ext l retain qos oic glob
    rfl
  · intro st pfx now ext l retain qos oic glob
    rfl
  · intro st pfx now ext mj retain qos oic glob
    rfl
  · intro st pfx now ext l retain qos glob
    rfl
